import Mathlib

/-!
Verification of the Kataster-Sorter PDF processing engine
(`pdf_processor.py`): page-field extraction, grouping by
Fortführungsfallnummer (FFN, "case number"), standard/special
classification by Grundbuchblatt (GB, "registry-sheet") sets, stable
sorting, and assembly of the combined output with AKZ (tracking-code)
correction.

The regex engine and PDF text extraction are external collaborators: a
page's raw text is represented by the outcome of the fixed regex
searches the code performs on it (`FFN_PATTERN.search`,
`GB_PATTERN.findall`, `GB_LFD_PATTERN.search`, `LFD_NR_PATTERN.search`,
`GB_COVER_PATTERN.search`, `MEHRERE_GB_PATTERN.search`,
`AKZ_PATTERN.search`).  All regexes capture digit groups (numbers) or a
non-empty token (the AKZ), so an absent match is `none` and a present
match carries the captured value.  PDF page handles are represented by
their zero-based page numbers; `PdfWriter.add_page` calls become
elements of an output list.
-/

namespace Kataster

/-- Result of the fixed regex searches on one page's extracted text.
`ffn_match` = first `FFN_PATTERN` match, `gb_matches` = all `GB_PATTERN`
matches in order, `gb_lfd_match` = first `GB_LFD_PATTERN` match,
`lfd_nr_match` = first `LFD_NR_PATTERN` match, `gb_cover_match` = first
`GB_COVER_PATTERN` match, `mehrere_gb` = whether `MEHRERE_GB_PATTERN`
matches, `akz_match` = first `AKZ_PATTERN` match (always a non-empty
token when present). -/
structure PageText where
  ffn_match : Option Nat := none
  gb_matches : List Nat := []
  gb_lfd_match : Option Nat := none
  lfd_nr_match : Option Nat := none
  gb_cover_match : Option Nat := none
  mehrere_gb : Bool := false
  akz_match : Option String := none
deriving DecidableEq

/-- `PageInfo` dataclass: data extracted from one main-extract page. -/
structure PageInfo where
  page_number : Nat
  ffn : Option Nat := none
  gb_numbers : Finset Nat := ∅
  lfd_nr : Option Nat := none
  antragskennzeichen : Option String := none
deriving DecidableEq

/-- `CoverPage` dataclass: data extracted from one cover-sheet page. -/
structure CoverPage where
  page_number : Nat
  gb_number : Option Nat := none
  antragskennzeichen : Option String := none
deriving DecidableEq

/-- `Package` dataclass: one group of pages sharing an FFN value. -/
structure Package where
  ffn : Option Nat
  pages : List PageInfo
  unique_gbs : Finset Nat := ∅
  is_sonderfall : Bool := false
  primary_gb : Option Nat := none
  lfd_nr : Option Nat := none
  antragskennzeichen : Option String := none
deriving DecidableEq

/-- `detect_file_type`: counts the three marker patterns over the first
5 pages and decides the role in strict priority order. -/
def detect_file_type (doc : List PageText) : String :=
  let sample := doc.take 5
  let ffn_count := (sample.filter (fun t => t.ffn_match.isSome)).length
  let gb_cover_count := (sample.filter (fun t => t.gb_cover_match.isSome)).length
  let mehrere_gb_count := (sample.filter (fun t => t.mehrere_gb)).length
  if ffn_count > 0 then "kataster"
  else if mehrere_gb_count > 0 then "cover_sonder"
  else if gb_cover_count > 0 then "cover_standard"
  else "kataster"

/-- Body of the `_extract_page_info` loop for one page: builds the
`PageInfo` for page `page_num` from the regex outcomes on its text. -/
def extract_page_info_one (page_num : Nat) (t : PageText) : PageInfo :=
  { page_number := page_num
    ffn := t.ffn_match
    gb_numbers := t.gb_matches.toFinset
    lfd_nr := match t.gb_lfd_match with
      | some v => some v
      | none => t.lfd_nr_match
    antragskennzeichen := t.akz_match }

/-- The `_extract_page_info` enumeration loop, carrying the running page
number. -/
def extract_page_info_from (n : Nat) : List PageText → List PageInfo
  | [] => []
  | t :: rest => extract_page_info_one n t :: extract_page_info_from (n + 1) rest

/-- `KatasterSorter._extract_page_info`: one `PageInfo` per page, in
page order, `page_number` = zero-based position. -/
def extract_page_info (doc : List PageText) : List PageInfo :=
  extract_page_info_from 0 doc

/-- `KatasterSorter._extract_kataster_akz`: first non-null AKZ in page
order (the regex never captures an empty string, so Python truthiness
on the field is definedness). -/
def extract_kataster_akz : List PageInfo → Option String
  | [] => none
  | p :: rest =>
    match p.antragskennzeichen with
    | some a => some a
    | none => extract_kataster_akz rest

/-- First non-null value of a list of optional fields (the
`for p in pages: if ... and pkg.x is None: pkg.x = p.x` pattern in
`_group_by_ffn`). -/
def first_some {α : Type} : List (Option α) → Option α
  | [] => none
  | some a :: _ => some a
  | none :: rest => first_some rest

/-- `ffn_groups[current_ffn].append(page)` on an insertion-ordered
dict modelled as an association list (Python dicts preserve insertion
order). -/
def group_append (groups : List (Option Nat × List PageInfo)) (k : Option Nat)
    (p : PageInfo) : List (Option Nat × List PageInfo) :=
  match groups with
  | [] => [(k, [p])]
  | g :: rest => if g.1 = k then (g.1, g.2 ++ [p]) :: rest else g :: group_append rest k p

/-- The page walk of `_group_by_ffn`, carrying the running
`current_ffn`. -/
def group_walk (cur : Option Nat) (ps : List PageInfo)
    (groups : List (Option Nat × List PageInfo)) : List (Option Nat × List PageInfo) :=
  match ps with
  | [] => groups
  | p :: rest =>
    let cur' := match p.ffn with
      | some f => some f
      | none => cur
    group_walk cur' rest (group_append groups cur' p)

/-- Package construction in `_group_by_ffn`: `lfd_nr` and
`antragskennzeichen` are taken from the first page that has them. -/
def mk_package (ffn : Option Nat) (pages : List PageInfo) : Package :=
  { ffn := ffn
    pages := pages
    lfd_nr := first_some (pages.map (·.lfd_nr))
    antragskennzeichen := first_some (pages.map (·.antragskennzeichen)) }

/-- `KatasterSorter._group_by_ffn`. -/
def group_by_ffn (pages : List PageInfo) : List Package :=
  (group_walk none pages []).map (fun g => mk_package g.1 g.2)

/-- Body of the `_analyze_packages` loop for one package: union of the
member pages' GB sets, special iff more than one distinct GB, otherwise
standard with `primary_gb = min(all_gbs) if all_gbs else None`. -/
def analyze_package (pkg : Package) : Package :=
  let all_gbs := pkg.pages.foldl (fun s p => s ∪ p.gb_numbers) ∅
  if 1 < all_gbs.card then
    { pkg with unique_gbs := all_gbs, is_sonderfall := true }
  else
    { pkg with unique_gbs := all_gbs, is_sonderfall := false
               primary_gb := if h : all_gbs.Nonempty then some (all_gbs.min' h) else none }

/-- `KatasterSorter._analyze_packages`: annotates every package and
routes it into the standard or the Sonderfall bucket, in order.
Returns `(packages, standard_packages, sonderfall_packages)`. -/
def analyze_packages (pkgs : List Package) :
    List Package × List Package × List Package :=
  let analyzed := pkgs.map analyze_package
  (analyzed, analyzed.filter (fun p => !p.is_sonderfall),
    analyzed.filter (fun p => p.is_sonderfall))

/-- Stable insertion of one element into a list: `a` goes before the
first element `b` with `le a b`.  Models one step of Python's stable
`list.sort`. -/
def insort_one {α : Type} (le : α → α → Bool) (a : α) : List α → List α
  | [] => [a]
  | b :: l => if le a b then a :: b :: l else b :: insort_one le a l

/-- Stable sort by the boolean preorder `le` (insertion sort, the
canonical model of Python's stable `list.sort`). -/
def insort {α : Type} (le : α → α → Bool) : List α → List α
  | [] => []
  | a :: l => insort_one le a (insort le l)

/-- The sort key comparison of `_sort_packages`:
`p.primary_gb if p.primary_gb is not None else float(\x27inf\x27)`, so
`none` compares above every number. -/
def le_gb : Option Nat → Option Nat → Bool
  | _, none => true
  | none, some _ => false
  | some a, some b => a ≤ b

/-- `KatasterSorter._sort_packages`: stable ascending sort of the
standard packages by `primary_gb`, `None` last. -/
def sort_packages (standard : List Package) : List Package :=
  insort (fun p q => le_gb p.primary_gb q.primary_gb) standard

/-- Body of the `_parse_standard_covers` loop for one page:
`GB_COVER_PATTERN` first, falling back to the first `GB_PATTERN`
match. -/
def parse_standard_cover_one (page_num : Nat) (t : PageText) : CoverPage :=
  { page_number := page_num
    gb_number := match t.gb_cover_match with
      | some v => some v
      | none => t.gb_matches.head?
    antragskennzeichen := t.akz_match }

/-- The `_parse_standard_covers` enumeration loop. -/
def parse_standard_covers_from (n : Nat) : List PageText → List CoverPage
  | [] => []
  | t :: rest => parse_standard_cover_one n t :: parse_standard_covers_from (n + 1) rest

/-- `KatasterSorter._parse_standard_covers`. -/
def parse_standard_covers (doc : List PageText) : List CoverPage :=
  parse_standard_covers_from 0 doc

/-- The `_parse_sonder_covers` enumeration loop (page number and AKZ
only). -/
def parse_sonder_covers_from (n : Nat) : List PageText → List CoverPage
  | [] => []
  | t :: rest =>
    { page_number := n, antragskennzeichen := t.akz_match } ::
      parse_sonder_covers_from (n + 1) rest

/-- `KatasterSorter._parse_sonder_covers`. -/
def parse_sonder_covers (doc : List PageText) : List CoverPage :=
  parse_sonder_covers_from 0 doc

/-- The correction notice appended to `akz_mismatches`:
`f"Deckblatt S.{cover.page_number+1}: \x27{old}\x27 → \x27{new}\x27"`. -/
def mk_notice (page_number : Nat) (oldAkz newAkz : String) : String :=
  "Deckblatt S." ++ toString (page_number + 1) ++ ": \x27" ++ oldAkz ++
    "\x27 → \x27" ++ newAkz ++ "\x27"

/-- `KatasterSorter._apply_akz_correction`: overlay merged and notice
appended iff both the detected Kataster AKZ and the cover's AKZ are
present and differ (regex-captured AKZs are non-empty, so Python
truthiness is definedness).  Returns `(overlay applied, appended
notice)`. -/
def apply_akz_correction (kataster_akz : Option String) (cover : CoverPage) :
    Bool × Option String :=
  match kataster_akz, cover.antragskennzeichen with
  | some ka, some ca =>
    if ca ≠ ka then (true, some (mk_notice cover.page_number ca ka))
    else (false, none)
  | _, _ => (false, none)

/-- One page added to the output writer: a standard cover page, a
Sonderfall cover page (each with its source page number and whether the
AKZ-correction overlay was merged onto it), or a main-extract content
page. -/
inductive OutputPage where
  | cover_std (page_number : Nat) (corrected : Bool)
  | cover_snd (page_number : Nat) (corrected : Bool)
  | content (page_number : Nat)
deriving DecidableEq

/-- The processor state that `_create_combined_pdf` reads: the fields
of `KatasterSorter` after grouping, analysis, sorting and cover
parsing.  The three `has_*` flags model the `is not None` status of the
corresponding PDF readers. -/
structure SorterState where
  pages : List PageInfo := []
  standard_packages : List Package := []
  sonderfall_packages : List Package := []
  cover_standard_pages : List CoverPage := []
  cover_sonder_pages : List CoverPage := []
  kataster_akz : Option String := none
  has_pdf_reader : Bool := true
  has_cover_standard_reader : Bool := false
  has_cover_sonder_reader : Bool := false

/-- The `cover_by_gb` index: built only when a standard-cover reader
exists; on duplicate GB numbers the last cover page wins. -/
def cover_by_gb (st : SorterState) (gb : Nat) : Option CoverPage :=
  if st.has_cover_standard_reader then
    (st.cover_standard_pages.filter (fun c => c.gb_number = some gb)).getLast?
  else none

/-- The keyed standard groups' keys, in the order the assembler
processes them: `sorted(gb_groups.keys())` (distinct, ascending). -/
def standard_gb_keys (st : SorterState) : List Nat :=
  insort (fun a b => a ≤ b) (st.standard_packages.filterMap (·.primary_gb)).dedup

/-- The members of one keyed group, in pre-sort order
(`gb_groups[gb_number]`). -/
def group_pkgs (st : SorterState) (gb : Nat) : List Package :=
  st.standard_packages.filter (fun p => p.primary_gb = some gb)

/-- The in-group sort key comparison:
`(p.lfd_nr if p.lfd_nr is not None else float(\x27inf\x27), p.ffn if
p.ffn is not None else 0)`, compared lexicographically. -/
def sub_le (p q : Package) : Bool :=
  (le_gb p.lfd_nr q.lfd_nr && !le_gb q.lfd_nr p.lfd_nr) ||
    (p.lfd_nr = q.lfd_nr && p.ffn.getD 0 ≤ q.ffn.getD 0)

/-- `packages.sort(key=...)` inside one GB group (stable, by
`sub_le`). -/
def sort_group (pkgs : List Package) : List Package :=
  insort sub_le pkgs

/-- The content pages a package contributes, in member-page order. -/
def pkg_content (pkg : Package) : List OutputPage :=
  pkg.pages.map (fun pi => OutputPage.content pi.page_number)

/-- One iteration of the keyed-group loop of `_create_combined_pdf`:
one cover page for the group if the index has one, then all the
group's packages' pages, the packages sorted by `sub_le`.  Returns the
writer additions and the appended mismatch notices. -/
def emit_group (st : SorterState) (gb : Nat) : List OutputPage × List String :=
  let packages := sort_group (group_pkgs st gb)
  let covPart : List OutputPage × List String :=
    match cover_by_gb st gb with
    | some c =>
      let corr := apply_akz_correction st.kataster_akz c
      ([OutputPage.cover_std c.page_number corr.1], corr.2.toList)
    | none => ([], [])
  (covPart.1 ++ packages.flatMap pkg_content, covPart.2)

/-- The Sonderfall loop of `_create_combined_pdf`: covers are consumed
cyclically (`sonder_idx % len`) when a Sonderfall cover reader exists
and has pages; `sonder_idx` advances only when a cover is emitted. -/
def emit_sonder (st : SorterState) (idx : Nat) : List Package → List OutputPage × List String
  | [] => ([], [])
  | pkg :: rest =>
    if st.has_cover_sonder_reader ∧ st.cover_sonder_pages ≠ [] then
      let c := st.cover_sonder_pages.getD (idx % st.cover_sonder_pages.length)
        { page_number := 0 }
      let corr := apply_akz_correction st.kataster_akz c
      let tail := emit_sonder st (idx + 1) rest
      (OutputPage.cover_snd c.page_number corr.1 :: (pkg_content pkg ++ tail.1),
        corr.2.toList ++ tail.2)
    else
      let tail := emit_sonder st idx rest
      (pkg_content pkg ++ tail.1, tail.2)

/-- The keyed-standard-group loop of `_create_combined_pdf`: the
groups in ascending GB order, writer additions and notices
accumulated. -/
def standard_section (st : SorterState) : List OutputPage × List String :=
  (standard_gb_keys st).foldl
    (fun acc gb =>
      let g := emit_group st gb
      (acc.1 ++ g.1, acc.2 ++ g.2)) ([], [])

/-- The key-less standard packages' pages (`no_gb_packages`, emitted
after all keyed groups, in original order, with no cover). -/
def no_gb_section (st : SorterState) : List OutputPage :=
  (st.standard_packages.filter (fun p => p.primary_gb = none)).flatMap pkg_content

/-- All pages `_create_combined_pdf` adds to the writer, in order
(`pages_added` is the length of this list). -/
def assemble_pages (st : SorterState) : List OutputPage :=
  (standard_section st).1 ++ no_gb_section st ++ (emit_sonder st 0 st.sonderfall_packages).1

/-- The `akz_mismatches` notices appended during `_create_combined_pdf`,
in order. -/
def assemble_notices (st : SorterState) : List String :=
  (standard_section st).2 ++ (emit_sonder st 0 st.sonderfall_packages).2

/-- `KatasterSorter._create_combined_pdf`: `None` without a main
reader, otherwise the keyed standard groups in ascending GB order, the
key-less standard packages, then the Sonderfall packages; `None`
instead of an empty output when zero pages were added.  Returns the
combined output and the accumulated `akz_mismatches`. -/
def create_combined_pdf (st : SorterState) : Option (List OutputPage) × List String :=
  if st.has_pdf_reader then
    (if (assemble_pages st).length = 0 then none else some (assemble_pages st),
      assemble_notices st)
  else (none, [])

/-- The `ProcessingResult` dict returned by `process_files`
(`debug_log` omitted: free-form diagnostics, no claim concerns it). -/
structure ProcResult where
  total_pages : Nat
  total_packages : Nat
  standard_count : Nat
  sonderfall_count : Nat
  cover_standard_count : Nat
  cover_sonder_count : Nat
  kataster_akz : Option String
  akz_mismatches : List String
  combined_pdf : Option (List OutputPage)
deriving DecidableEq

/-- One iteration of the auto-classification loop of `process_files`:
the file is typed by `detect_file_type` and the matching slot is
overwritten (last one wins).  Accumulator
`(kataster, cover_std, cover_snd)`. -/
def classify_step
    (acc : Option (List PageText) × Option (List PageText) × Option (List PageText))
    (f : String × List PageText) :
    Option (List PageText) × Option (List PageText) × Option (List PageText) :=
  let t := detect_file_type f.2
  if t = "kataster" then (some f.2, acc.2.1, acc.2.2)
  else if t = "cover_standard" then (acc.1, some f.2, acc.2.2)
  else if t = "cover_sonder" then (acc.1, acc.2.1, some f.2)
  else acc

/-- The auto-classification loop of `process_files`. -/
def classify_files (files : List (String × List PageText)) :
    Option (List PageText) × Option (List PageText) × Option (List PageText) :=
  files.foldl classify_step (none, none, none)

/-- `KatasterSorter.process_files`: classify, require a Kataster
extract (a detected file's bytes are a parsed, hence non-empty, PDF, so
`if not kataster_bytes` is the `none` check), extract, group, analyze,
sort, parse covers, assemble, and build the result dict.  A `ValueError`
is an `Except.error`. -/
def process_files (files : List (String × List PageText)) : Except String ProcResult :=
  let slots := classify_files files
  match slots.1 with
  | none => .error ("Kein Kataster-Auszug erkannt! " ++
      "(Datei muss \x27Fortführungsfallnummer\x27 enthalten)")
  | some kdoc =>
    let pages := extract_page_info kdoc
    let akz := extract_kataster_akz pages
    let grouped := group_by_ffn pages
    let analyzed := analyze_packages grouped
    let standard := sort_packages analyzed.2.1
    let cover_std := match slots.2.1 with
      | some d => parse_standard_covers d
      | none => []
    let cover_snd := match slots.2.2 with
      | some d => parse_sonder_covers d
      | none => []
    let st : SorterState :=
      { pages := pages
        standard_packages := standard
        sonderfall_packages := analyzed.2.2
        cover_standard_pages := cover_std
        cover_sonder_pages := cover_snd
        kataster_akz := akz
        has_pdf_reader := true
        has_cover_standard_reader := slots.2.1.isSome
        has_cover_sonder_reader := slots.2.2.isSome }
    let combined := create_combined_pdf st
    .ok { total_pages := pages.length
          total_packages := analyzed.1.length
          standard_count := standard.length
          sonderfall_count := analyzed.2.2.length
          cover_standard_count := cover_std.length
          cover_sonder_count := cover_snd.length
          kataster_akz := akz
          akz_mismatches := combined.2
          combined_pdf := combined.1 }

/-! ### Concrete fixtures used to instantiate the theorems -/

/-- A page text whose combined `registry-sheet-label: N (seq)` and
standalone `lfd. Nr.` regexes both match, with different values. -/
def tW : PageText := { gb_lfd_match := some 7, lfd_nr_match := some 9 }

/-- A cover document sample whose pages carry the "mehrere
Grundbuchblätter" phrase and no FFN marker (Scenario D). -/
def docD : List PageText := [{ mehrere_gb := true }]

/-- A cover page carrying a mismatched AKZ. -/
def coverW : CoverPage := { page_number := 0, antragskennzeichen := some "2024_I_1" }

/-- A one-page main extract: FFN 10, GB 5. -/
def docW2 : List PageText := [{ ffn_match := some 10, gb_matches := [5] }]

/-- The page records of `docW2`. -/
def pagesW2 : List PageInfo := extract_page_info docW2

/-- The single analyzed package of `docW2`. -/
def pkgW2 : Package := analyze_package (mk_package (some 10) pagesW2)

/-- A main extract document detected as `kataster`. -/
def mainDocW : List PageText :=
  [{ ffn_match := some 10, gb_matches := [5], akz_match := some "2024_I_2" }]

/-- An upload set containing a main extract. -/
def filesMain : List (String × List PageText) := [("auszug", mainDocW)]

/-- Scenario E state: two standard packages share primary key 5 with
sequence numbers 2 and 1; one matching cover page for key 5. -/
def pkgE1 : Package :=
  { ffn := some 1, pages := [{ page_number := 0 }, { page_number := 1 }],
    primary_gb := some 5, lfd_nr := some 2 }

/-- Scenario E: the sequence-1 package. -/
def pkgE2 : Package :=
  { ffn := some 2, pages := [{ page_number := 2 }], primary_gb := some 5,
    lfd_nr := some 1 }

/-- Scenario E: the shared cover page for key 5. -/
def cE : CoverPage :=
  { page_number := 0, gb_number := some 5, antragskennzeichen := some "2024_I_1" }

/-- Scenario E assembler state. -/
def stE : SorterState :=
  { standard_packages := [pkgE1, pkgE2], cover_standard_pages := [cE],
    kataster_akz := some "2024_I_2", has_cover_standard_reader := true }

/-- The expected `process_files` result on `filesMain`. -/
def rMain : ProcResult :=
  { total_pages := 1, total_packages := 1, standard_count := 1,
    sonderfall_count := 0, cover_standard_count := 0, cover_sonder_count := 0,
    kataster_akz := some "2024_I_2", akz_mismatches := [],
    combined_pdf := some [OutputPage.content 0] }

/-! ### Stable-sort lemmas -/

theorem perm_insort_one {α : Type} (le : α → α → Bool) (a : α) (l : List α) :
    List.Perm (insort_one le a l) (a :: l) := by
  induction l with
  | nil => rfl
  | cons b l ih =>
    rw [insort_one]
    by_cases h : le a b = true
    · rw [if_pos h]
    · rw [if_neg h]
      exact (ih.cons b).trans (List.Perm.swap a b l)

theorem perm_insort {α : Type} (le : α → α → Bool) (l : List α) :
    List.Perm (insort le l) l := by
  induction l with
  | nil => rfl
  | cons a l ih => exact (perm_insort_one le a _).trans (ih.cons a)

theorem mem_insort_one {α : Type} (le : α → α → Bool) (a x : α) (l : List α) :
    x ∈ insort_one le a l ↔ x = a ∨ x ∈ l := by
  rw [(perm_insort_one le a l).mem_iff, List.mem_cons]

theorem pairwise_insort_one {α : Type} (le : α → α → Bool)
    (htot : ∀ a b, le a b = true ∨ le b a = true)
    (htrans : ∀ a b c, le a b = true → le b c = true → le a c = true)
    (a : α) (l : List α) (h : l.Pairwise (fun x y => le x y = true)) :
    (insort_one le a l).Pairwise (fun x y => le x y = true) := by
  induction l with
  | nil => simp [insort_one]
  | cons b l ih =>
    rw [List.pairwise_cons] at h
    rw [insort_one]
    by_cases hab : le a b = true
    · rw [if_pos hab]
      refine List.Pairwise.cons ?_ (List.Pairwise.cons h.1 h.2)
      intro y hy
      rcases List.mem_cons.1 hy with rfl | hy
      · exact hab
      · exact htrans a b y hab (h.1 y hy)
    · rw [if_neg hab]
      have hba : le b a = true := (htot a b).resolve_left hab
      refine List.Pairwise.cons ?_ (ih h.2)
      intro y hy
      rcases (mem_insort_one le a y l).1 hy with rfl | hy
      · exact hba
      · exact h.1 y hy

theorem pairwise_insort {α : Type} (le : α → α → Bool)
    (htot : ∀ a b, le a b = true ∨ le b a = true)
    (htrans : ∀ a b c, le a b = true → le b c = true → le a c = true)
    (l : List α) : (insort le l).Pairwise (fun x y => le x y = true) := by
  induction l with
  | nil => exact List.Pairwise.nil
  | cons a l ih => exact pairwise_insort_one le htot htrans a _ ih

theorem filter_insort_one {α : Type} (le : α → α → Bool) (p : α → Bool) (a : α)
    (l : List α) (h : ∀ b, p a = true → p b = true → le a b = true) :
    (insort_one le a l).filter p = if p a then a :: l.filter p else l.filter p := by
  induction l with
  | nil => simp only [insort_one, List.filter_cons, List.filter_nil]
  | cons b l ih =>
    rw [insort_one]
    by_cases hab : le a b = true
    · rw [if_pos hab, List.filter_cons]
    · rw [if_neg hab, List.filter_cons, List.filter_cons]
      by_cases hpa : p a = true
      · have hpb : ¬ p b = true := fun hpb => hab (h b hpa hpb)
        rw [if_neg hpb, if_neg hpb, ih]
      · simp [ih, hpa]

theorem filter_insort {α : Type} (le : α → α → Bool) (p : α → Bool) (l : List α)
    (h : ∀ a b, p a = true → p b = true → le a b = true) :
    (insort le l).filter p = l.filter p := by
  induction l with
  | nil => rfl
  | cons a l ih =>
    rw [insort, filter_insort_one le p a _ (fun b => h a b), ih, List.filter_cons]

/-! ### Properties of the sort keys -/

theorem le_gb_total (x y : Option Nat) : le_gb x y = true ∨ le_gb y x = true := by
  cases x <;> cases y <;> (simp [le_gb]; try omega)

theorem le_gb_trans (x y z : Option Nat) (h1 : le_gb x y = true)
    (h2 : le_gb y z = true) : le_gb x z = true := by
  cases x <;> cases y <;> cases z <;> (simp_all [le_gb]; try omega)

theorem le_gb_refl (x : Option Nat) : le_gb x x = true := by
  cases x <;> simp [le_gb]

theorem sub_le_total (p q : Package) : sub_le p q = true ∨ sub_le q p = true := by
  rcases le_gb_total p.lfd_nr q.lfd_nr with h | h <;>
    rcases le_gb_total q.lfd_nr p.lfd_nr with h' | h' <;>
      cases hl : p.lfd_nr <;> cases hl' : q.lfd_nr <;>
        simp_all [sub_le, le_gb] <;> omega

theorem sub_le_trans (p q r : Package) (h1 : sub_le p q = true)
    (h2 : sub_le q r = true) : sub_le p r = true := by
  cases hp : p.lfd_nr <;> cases hq : q.lfd_nr <;> cases hr : r.lfd_nr <;>
    simp_all [sub_le, le_gb] <;> omega

theorem sub_le_of_key_eq (p q : Package)
    (h : (p.lfd_nr, p.ffn.getD 0) = (q.lfd_nr, q.ffn.getD 0)) : sub_le p q = true := by
  rw [Prod.mk.injEq] at h
  cases hp : p.lfd_nr <;> simp_all [sub_le, le_gb]

/-! ### Grouping partitions the pages -/

theorem flat_group_append (gs : List (Option Nat × List PageInfo)) (k : Option Nat)
    (p : PageInfo) :
    List.Perm ((group_append gs k p).flatMap (·.2)) (gs.flatMap (·.2) ++ [p]) := by
  induction gs with
  | nil => simp [group_append]
  | cons g rest ih =>
    rw [group_append]
    by_cases h : g.1 = k
    · rw [if_pos h]
      simp only [List.flatMap_cons]
      rw [List.append_assoc, List.append_assoc]
      exact List.Perm.append_left g.2 List.perm_append_comm
    · rw [if_neg h]
      simp only [List.flatMap_cons]
      rw [List.append_assoc]
      exact List.Perm.append_left g.2 ih

theorem flat_group_walk (ps : List PageInfo) : ∀ (cur : Option Nat)
    (gs : List (Option Nat × List PageInfo)),
    List.Perm ((group_walk cur ps gs).flatMap (·.2)) (gs.flatMap (·.2) ++ ps) := by
  induction ps with
  | nil => intro cur gs; simp [group_walk]
  | cons p rest ih =>
    intro cur gs
    rw [group_walk]
    refine (ih _ _).trans ?_
    refine ((flat_group_append gs _ p).append_right rest).trans ?_
    rw [List.append_assoc]
    exact List.Perm.refl _

theorem flat_mk_package (gs : List (Option Nat × List PageInfo)) :
    (gs.map (fun g => mk_package g.1 g.2)).flatMap Package.pages = gs.flatMap (·.2) := by
  induction gs with
  | nil => rfl
  | cons g rest ih => simp only [List.map_cons, List.flatMap_cons, ih]; rfl

theorem extract_from_map_page_number (doc : List PageText) : ∀ n : Nat,
    (extract_page_info_from n doc).map PageInfo.page_number = List.range' n doc.length := by
  induction doc with
  | nil => intro n; rfl
  | cons t rest ih =>
    intro n
    rw [extract_page_info_from, List.map_cons, List.length_cons, List.range'_succ, ih]
    rfl

/-- C1: the grouping step partitions the main-extract pages — over one
run, the page numbers of all created packages' page lists, taken
together, are exactly the original page indices `0 .. n-1`, each
occurring exactly once (stated as a permutation of `List.range`). -/
theorem group_by_ffn_partition (texts : List PageText) :
    List.Perm (((group_by_ffn (extract_page_info texts)).flatMap Package.pages).map
      PageInfo.page_number) (List.range texts.length) := by
  rw [group_by_ffn, flat_mk_package]
  refine ((flat_group_walk (extract_page_info texts) none []).map
    PageInfo.page_number).trans ?_
  simp only [List.flatMap_nil, List.nil_append]
  rw [extract_page_info, extract_from_map_page_number, List.range_eq_range']

/-! ### Classification -/

theorem group_by_ffn_primary_none (pages : List PageInfo) (q : Package)
    (hq : q ∈ group_by_ffn pages) : q.primary_gb = none := by
  rw [group_by_ffn] at hq
  obtain ⟨g, hg, rfl⟩ := List.mem_map.1 hq
  rfl

theorem analyze_package_spec (q : Package) (hqp : q.primary_gb = none) :
    ((analyze_package q).is_sonderfall = true ↔
      1 < (analyze_package q).unique_gbs.card) ∧
    ((analyze_package q).primary_gb.isSome = true ↔
      ((analyze_package q).is_sonderfall = false ∧
        (analyze_package q).unique_gbs.Nonempty)) ∧
    (∀ g : Nat, (analyze_package q).unique_gbs = {g} →
      (analyze_package q).primary_gb = some g) := by
  simp only [analyze_package]
  by_cases h : 1 < (q.pages.foldl (fun (s : Finset Nat) (p : PageInfo) => s ∪ p.gb_numbers) ∅).card
  · rw [if_pos h]
    refine ⟨by simpa using h, by simp [hqp], ?_⟩
    intro g hg
    simp only at hg
    rw [hg] at h
    simp at h
  · rw [if_neg h]
    refine ⟨by simpa using h, ?_, ?_⟩
    · by_cases hne : (q.pages.foldl (fun (s : Finset Nat) (p : PageInfo) => s ∪ p.gb_numbers) ∅).Nonempty
      · simp [hne]
      · simp [hne]
    · intro g hg
      simp only at hg
      simp [hg, Finset.min'_singleton]

/-- C2: after classification, a package is special iff its unique
registry-sheet set has more than one element, its primary key is
defined iff it is standard with a non-empty set, and in that case the
primary key is the sole element of the set. -/
theorem analyze_packages_classification (pages : List PageInfo) (pkg : Package)
    (hmem : pkg ∈ (analyze_packages (group_by_ffn pages)).1) :
    (pkg.is_sonderfall = true ↔ 1 < pkg.unique_gbs.card) ∧
    (pkg.primary_gb.isSome = true ↔
      (pkg.is_sonderfall = false ∧ pkg.unique_gbs.Nonempty)) ∧
    (∀ g : Nat, pkg.unique_gbs = {g} → pkg.primary_gb = some g) := by
  have hmem' : pkg ∈ (group_by_ffn pages).map analyze_package := hmem
  obtain ⟨q, hq, rfl⟩ := List.mem_map.1 hmem'
  exact analyze_package_spec q (group_by_ffn_primary_none pages q hq)

/-- C2 witness: the classification invariants hold for the single
package produced from the one-page extract `docW2` (set `{5}`,
standard, primary key 5). -/
theorem analyze_packages_classification_witness :
    pkgW2 ∈ (analyze_packages (group_by_ffn pagesW2)).1 ∧
    ((pkgW2.is_sonderfall = true ↔ 1 < pkgW2.unique_gbs.card) ∧
     (pkgW2.primary_gb.isSome = true ↔
       (pkgW2.is_sonderfall = false ∧ pkgW2.unique_gbs.Nonempty)) ∧
     (∀ g : Nat, pkgW2.unique_gbs = {g} → pkgW2.primary_gb = some g)) :=
  ⟨by decide, analyze_packages_classification pagesW2 pkgW2 (by decide)⟩

/-! ### Sorting -/

/-- C5: `_sort_packages` leaves the standard packages non-decreasing by
primary key with absent keys after all keyed packages, is a
permutation of its input, and is stable: packages with the same key
keep their relative pre-sort order. -/
theorem sort_packages_spec (ps : List Package) :
    (sort_packages ps).Pairwise
      (fun p q => le_gb p.primary_gb q.primary_gb = true) ∧
    List.Perm (sort_packages ps) ps ∧
    (sort_packages ps).Pairwise
      (fun p q => p.primary_gb = none → q.primary_gb = none) ∧
    (∀ k : Option Nat,
      (sort_packages ps).filter (fun p => p.primary_gb = k) =
        ps.filter (fun p => p.primary_gb = k)) := by
  have hpair := pairwise_insort (fun p q : Package => le_gb p.primary_gb q.primary_gb)
    (fun a b => le_gb_total a.primary_gb b.primary_gb)
    (fun a b c => le_gb_trans a.primary_gb b.primary_gb c.primary_gb) ps
  refine ⟨hpair, perm_insort _ ps, ?_, ?_⟩
  · refine hpair.imp ?_
    intro p q h hp
    cases hq : q.primary_gb with
    | none => rfl
    | some v => rw [hp, hq] at h; simp [le_gb] at h
  · intro k
    refine filter_insort _ _ ps ?_
    intro a b ha hb
    have ha' : a.primary_gb = k := of_decide_eq_true ha
    have hb' : b.primary_gb = k := of_decide_eq_true hb
    rw [ha', hb']
    exact le_gb_refl k

/-! ### Package counts -/

theorem length_sort_packages (l : List Package) :
    (sort_packages l).length = l.length :=
  (perm_insort _ l).length_eq

theorem analyze_counts (pkgs : List Package) :
    (analyze_packages pkgs).1.length =
      (analyze_packages pkgs).2.1.length + (analyze_packages pkgs).2.2.length := by
  simp only [analyze_packages]
  induction pkgs.map analyze_package with
  | nil => rfl
  | cons a l ih =>
    rw [List.filter_cons, List.filter_cons]
    cases h : a.is_sonderfall <;> simp [h, List.length_cons, ih] <;> omega

/-- C10: in every successful `process_files` result, the reported total
package count equals the standard count plus the special count (every
package lands in exactly one bucket). -/
theorem process_files_count_invariant (files : List (String × List PageText))
    (r : ProcResult) (h : process_files files = Except.ok r) :
    r.total_packages = r.standard_count + r.sonderfall_count := by
  simp only [process_files] at h
  cases hcl : (classify_files files).1 with
  | none => rw [hcl] at h; exact absurd h (by simp)
  | some kdoc =>
    rw [hcl] at h
    have h2 := Except.ok.inj h
    subst h2
    show (analyze_packages _).1.length =
      (sort_packages (analyze_packages _).2.1).length + (analyze_packages _).2.2.length
    rw [length_sort_packages]
    exact analyze_counts _

/-- C10 witness: on the one-main-extract upload set, total 1 = standard
1 + special 0. -/
theorem process_files_count_invariant_witness :
    process_files filesMain = Except.ok rMain ∧
      rMain.total_packages = rMain.standard_count + rMain.sonderfall_count :=
  ⟨rfl, process_files_count_invariant filesMain rMain rfl⟩

/-! ### File-type detection -/

theorem filter_length_pos {α : Type} (l : List α) (p : α → Bool) :
    0 < (l.filter p).length ↔ ∃ t ∈ l, p t = true := by
  rw [List.length_pos, Ne, List.filter_eq_nil_iff]
  push_neg
  simp

theorem filter_length_zero {α : Type} (l : List α) (p : α → Bool)
    (h : ∀ t ∈ l, p t = false) : (l.filter p).length = 0 := by
  rw [List.length_eq_zero, List.filter_eq_nil_iff]
  intro a ha
  simp [h a ha]

/-- C6: the detector decides in strict priority order over the first-5
page sample: FFN marker ⇒ `kataster` (main); else "mehrere
Grundbuchblätter" ⇒ `cover_sonder` (special cover); else the
`Grundbuchblatt (lfd. Nr.)` cover label ⇒ `cover_standard`; else the
`kataster` default. -/
theorem detect_file_type_priority (doc : List PageText) :
    ((∃ t ∈ doc.take 5, t.ffn_match.isSome = true) →
      detect_file_type doc = "kataster") ∧
    ((∀ t ∈ doc.take 5, t.ffn_match = none) →
      (∃ t ∈ doc.take 5, t.mehrere_gb = true) →
      detect_file_type doc = "cover_sonder") ∧
    ((∀ t ∈ doc.take 5, t.ffn_match = none) →
      (∀ t ∈ doc.take 5, t.mehrere_gb = false) →
      (∃ t ∈ doc.take 5, t.gb_cover_match.isSome = true) →
      detect_file_type doc = "cover_standard") ∧
    ((∀ t ∈ doc.take 5, t.ffn_match = none) →
      (∀ t ∈ doc.take 5, t.mehrere_gb = false) →
      (∀ t ∈ doc.take 5, t.gb_cover_match = none) →
      detect_file_type doc = "kataster") := by
  refine ⟨?_, ?_, ?_, ?_⟩
  · intro h
    simp only [detect_file_type]
    rw [if_pos ((filter_length_pos _ _).2 h)]
  · intro h1 h2
    simp only [detect_file_type]
    have hz1 : ((doc.take 5).filter (fun t => t.ffn_match.isSome)).length = 0 :=
      filter_length_zero _ _ (fun t ht => by simp [h1 t ht])
    rw [if_neg (by omega), if_pos ((filter_length_pos _ _).2 h2)]
  · intro h1 h2 h3
    simp only [detect_file_type]
    have hz1 : ((doc.take 5).filter (fun t => t.ffn_match.isSome)).length = 0 :=
      filter_length_zero _ _ (fun t ht => by simp [h1 t ht])
    have hz2 : ((doc.take 5).filter (fun t => t.mehrere_gb)).length = 0 :=
      filter_length_zero _ _ (fun t ht => h2 t ht)
    rw [if_neg (by omega), if_neg (by omega),
      if_pos ((filter_length_pos _ _).2 h3)]
  · intro h1 h2 h3
    simp only [detect_file_type]
    have hz1 : ((doc.take 5).filter (fun t => t.ffn_match.isSome)).length = 0 :=
      filter_length_zero _ _ (fun t ht => by simp [h1 t ht])
    have hz2 : ((doc.take 5).filter (fun t => t.mehrere_gb)).length = 0 :=
      filter_length_zero _ _ (fun t ht => h2 t ht)
    have hz3 : ((doc.take 5).filter (fun t => t.gb_cover_match.isSome)).length = 0 :=
      filter_length_zero _ _ (fun t ht => by simp [h3 t ht])
    rw [if_neg (by omega), if_neg (by omega), if_neg (by omega)]

/-- C6 witness (Scenario D): a sample with the "mehrere
Grundbuchblätter" phrase and no FFN marker is detected as the special
cover set. -/
theorem detect_file_type_priority_witness :
    detect_file_type docD = "cover_sonder" :=
  (detect_file_type_priority docD).2.1 (by decide) (by decide)

/-! ### Sequence-number extraction priority -/

/-- C9: the sequence number is taken from the combined
`Grundbuchblatt: N (seq)` form when it matches; only otherwise from the
standalone `lfd. Nr.: seq` form; and it stays unset (no error) when
neither matches. -/
theorem extract_lfd_priority (n : Nat) (t : PageText) :
    (∀ v : Nat, t.gb_lfd_match = some v →
      (extract_page_info_one n t).lfd_nr = some v) ∧
    (t.gb_lfd_match = none →
      (extract_page_info_one n t).lfd_nr = t.lfd_nr_match) ∧
    (t.gb_lfd_match = none → t.lfd_nr_match = none →
      (extract_page_info_one n t).lfd_nr = none) := by
  refine ⟨?_, ?_, ?_⟩
  · intro v hv
    simp [extract_page_info_one, hv]
  · intro h1
    simp [extract_page_info_one, h1]
  · intro h1 h2
    simp [extract_page_info_one, h1, h2]

/-- C9 witness: with both forms present (`7` combined, `9` standalone),
the combined value 7 wins. -/
theorem extract_lfd_priority_witness :
    (extract_page_info_one 0 tW).lfd_nr = some 7 :=
  (extract_lfd_priority 0 tW).1 7 rfl

/-! ### AKZ correction -/

/-- C4: the correction (overlay + appended notice
`Deckblatt S.<n>: <old> → <new>`) is applied iff both the cover's AKZ
and the main extract's detected AKZ are present and differ; if either
is missing nothing is attempted; and the detected main-extract AKZ is
the first one found in page order. -/
theorem apply_akz_correction_spec (akz : Option String) (cover : CoverPage) :
    ((apply_akz_correction akz cover).1 = true ↔
      ∃ ka ca, akz = some ka ∧ cover.antragskennzeichen = some ca ∧ ca ≠ ka) ∧
    ((apply_akz_correction akz cover).2.isSome = (apply_akz_correction akz cover).1) ∧
    (∀ ka ca, akz = some ka → cover.antragskennzeichen = some ca → ca ≠ ka →
      (apply_akz_correction akz cover).2 =
        some (mk_notice cover.page_number ca ka)) ∧
    (∀ pages : List PageInfo, extract_kataster_akz pages =
      (pages.filterMap PageInfo.antragskennzeichen).head?) := by
  refine ⟨?_, ?_, ?_, ?_⟩
  · cases hk : akz with
    | none => simp [apply_akz_correction, hk]
    | some ka =>
      cases hc : cover.antragskennzeichen with
      | none => simp [apply_akz_correction, hk, hc]
      | some ca =>
        by_cases hne : ca = ka <;> simp [apply_akz_correction, hk, hc, hne]
  · cases hk : akz with
    | none => simp [apply_akz_correction, hk]
    | some ka =>
      cases hc : cover.antragskennzeichen with
      | none => simp [apply_akz_correction, hk, hc]
      | some ca =>
        by_cases hne : ca = ka <;> simp [apply_akz_correction, hk, hc, hne]
  · intro ka ca hk hc hne
    simp [apply_akz_correction, hk, hc, hne]
  · intro pages
    induction pages with
    | nil => rfl
    | cons p rest ih =>
      cases h : p.antragskennzeichen <;>
        simp [extract_kataster_akz, List.filterMap_cons, h, ih]

/-- C4 witness: with detected AKZ `2024_I_2` and cover AKZ `2024_I_1`,
the correction is applied and the notice names the pair. -/
theorem apply_akz_correction_spec_witness :
    (apply_akz_correction (some "2024_I_2") coverW).2 =
      some (mk_notice 0 "2024_I_1" "2024_I_2") :=
  (apply_akz_correction_spec (some "2024_I_2") coverW).2.2.1
    "2024_I_2" "2024_I_1" rfl rfl (by decide)

/-! ### Empty assembly -/

/-- C7: the combined output is never an empty zero-page document — if
zero pages are emitted (in particular with zero packages, whatever
covers were supplied) it is reported as absent (`none`). -/
theorem create_combined_pdf_never_empty (st : SorterState) :
    ((create_combined_pdf st).1 = none ∨
      ∃ p rest, (create_combined_pdf st).1 = some (p :: rest)) ∧
    (st.standard_packages = [] → st.sonderfall_packages = [] →
      (create_combined_pdf st).1 = none) := by
  constructor
  · rw [create_combined_pdf]
    by_cases hr : st.has_pdf_reader = true
    · rw [if_pos hr]
      cases hout : assemble_pages st with
      | nil => left; simp [hout]
      | cons p rest =>
        right
        exact ⟨p, rest, by simp [hout]⟩
    · rw [if_neg hr]
      left
      rfl
  · intro h1 h2
    have hout : assemble_pages st = [] := by
      simp [assemble_pages, standard_section, standard_gb_keys, no_gb_section,
        insort, emit_sonder, h1, h2]
    rw [create_combined_pdf]
    by_cases hr : st.has_pdf_reader = true
    · rw [if_pos hr]
      simp [hout]
    · rw [if_neg hr]

/-- C7 witness: the all-empty state assembles to an absent output. -/
theorem create_combined_pdf_never_empty_witness :
    (create_combined_pdf {}).1 = none :=
  (create_combined_pdf_never_empty {}).2 rfl rfl

/-! ### Main-extract requirement -/

theorem classify_step_fst_none
    (acc : Option (List PageText) × Option (List PageText) × Option (List PageText))
    (f : String × List PageText) :
    (classify_step acc f).1 = none ↔
      (acc.1 = none ∧ detect_file_type f.2 ≠ "kataster") := by
  by_cases h1 : detect_file_type f.2 = "kataster"
  · simp [classify_step, h1]
  · by_cases h2 : detect_file_type f.2 = "cover_standard" <;>
      by_cases h3 : detect_file_type f.2 = "cover_sonder" <;>
        simp [classify_step, h1, h2, h3]

theorem classify_foldl_none (files : List (String × List PageText)) :
    ∀ acc : Option (List PageText) × Option (List PageText) × Option (List PageText),
    (files.foldl classify_step acc).1 = none ↔
      (acc.1 = none ∧ ∀ f ∈ files, detect_file_type f.2 ≠ "kataster") := by
  induction files with
  | nil => intro acc; simp
  | cons f rest ih =>
    intro acc
    rw [List.foldl_cons, ih, classify_step_fst_none]
    constructor
    · rintro ⟨⟨h1, h2⟩, h3⟩
      refine ⟨h1, ?_⟩
      intro g hg
      rcases List.mem_cons.1 hg with rfl | hg
      · exact h2
      · exact h3 g hg
    · rintro ⟨h1, h2⟩
      exact ⟨⟨h1, h2 f (List.mem_cons_self f rest)⟩,
        fun g hg => h2 g (List.mem_cons_of_mem f hg)⟩

/-- C8: when no uploaded blob resolves to the main-extract role,
`process_files` aborts with an error (no result at all); when some blob
resolves to the main role, that failure cannot happen and a result is
produced. -/
theorem process_files_requires_main (files : List (String × List PageText)) :
    ((∀ f ∈ files, detect_file_type f.2 ≠ "kataster") →
      ∃ msg, process_files files = Except.error msg) ∧
    ((∃ f ∈ files, detect_file_type f.2 = "kataster") →
      ∃ r, process_files files = Except.ok r) := by
  constructor
  · intro h
    have hn : (classify_files files).1 = none :=
      (classify_foldl_none files _).2 ⟨rfl, h⟩
    refine ⟨"Kein Kataster-Auszug erkannt! " ++
      "(Datei muss \x27Fortführungsfallnummer\x27 enthalten)", ?_⟩
    simp only [process_files, classify_files] at hn ⊢
    rw [hn]
  · intro h
    have hn : (classify_files files).1 ≠ none := by
      intro hcontra
      rw [classify_files, classify_foldl_none] at hcontra
      obtain ⟨-, hall⟩ := hcontra
      obtain ⟨f, hf, hdet⟩ := h
      exact hall f hf hdet
    cases hc : (classify_files files).1 with
    | none => exact absurd hc hn
    | some kdoc =>
      simp only [process_files, classify_files] at hc ⊢
      rw [hc]
      exact ⟨_, rfl⟩

/-- C8 witness: an upload set with a detected main extract yields a
result. -/
theorem process_files_requires_main_witness :
    ∃ r, process_files filesMain = Except.ok r :=
  (process_files_requires_main filesMain).2
    ⟨("auszug", mainDocW), by simp [filesMain], by decide⟩

/-! ### Keyed-group assembly order -/

/-- C3: within every keyed standard group of the assembled output, the
matching cover page — when one exists for that key — is emitted exactly
once, at the front, before all content pages, and when none exists the
group is content only; in either case the content consists only of
content pages, emitted package by package with the packages stably
sorted by (sequence number ascending, absent last; FFN case number
ascending as tiebreak): the emitted package order is pairwise
`sub_le`-sorted, a permutation of the group, and packages with equal
keys keep their relative order. -/
theorem emit_group_cover_and_order (st : SorterState) (gb : Nat) :
    (∀ c : CoverPage, cover_by_gb st gb = some c →
      ∃ b, (emit_group st gb).1 = OutputPage.cover_std c.page_number b ::
        (sort_group (group_pkgs st gb)).flatMap pkg_content) ∧
    (cover_by_gb st gb = none →
      (emit_group st gb).1 = (sort_group (group_pkgs st gb)).flatMap pkg_content) ∧
    (∀ o ∈ (sort_group (group_pkgs st gb)).flatMap pkg_content,
      ∃ m, o = OutputPage.content m) ∧
    (sort_group (group_pkgs st gb)).Pairwise (fun p q => sub_le p q = true) ∧
    List.Perm (sort_group (group_pkgs st gb)) (group_pkgs st gb) ∧
    (∀ k : Option Nat × Nat,
      (sort_group (group_pkgs st gb)).filter
          (fun p => (p.lfd_nr, p.ffn.getD 0) = k) =
        (group_pkgs st gb).filter
          (fun p => (p.lfd_nr, p.ffn.getD 0) = k)) := by
  refine ⟨?_, ?_, ?_, ?_, ?_, ?_⟩
  · intro c hc
    refine ⟨(apply_akz_correction st.kataster_akz c).1, ?_⟩
    simp only [emit_group, hc]
    rfl
  · intro hc
    simp only [emit_group, hc]
    rfl
  · intro o ho
    obtain ⟨p, hp, hpo⟩ := List.mem_flatMap.1 ho
    obtain ⟨pi, hpi, rfl⟩ := List.mem_map.1 hpo
    exact ⟨pi.page_number, rfl⟩
  · exact pairwise_insort sub_le sub_le_total sub_le_trans _
  · exact perm_insort _ _
  · intro k
    refine filter_insort sub_le _ _ ?_
    intro a b ha hb
    have ha' : (a.lfd_nr, a.ffn.getD 0) = k := of_decide_eq_true ha
    have hb' : (b.lfd_nr, b.ffn.getD 0) = k := of_decide_eq_true hb
    exact sub_le_of_key_eq a b (ha'.trans hb'.symm)

/-- C3 witness (Scenario E): in the key-5 group with sequence numbers 2
and 1, the single shared cover page for key 5 comes first and the
sequence-1 package's pages precede the sequence-2 package's pages. -/
theorem emit_group_cover_and_order_witness :
    cover_by_gb stE 5 = some cE ∧
    (∃ b, (emit_group stE 5).1 = OutputPage.cover_std cE.page_number b ::
      (sort_group (group_pkgs stE 5)).flatMap pkg_content) ∧
    (sort_group (group_pkgs stE 5)).flatMap pkg_content =
      [OutputPage.content 2, OutputPage.content 0, OutputPage.content 1] :=
  ⟨rfl, (emit_group_cover_and_order stE 5).1 cE rfl, rfl⟩

end Kataster
